import Mathlib

/-!
Verification of `src/granary/as2.py`, the ActivityStreams 1 <-> ActivityStreams 2
converter.  Python JSON-like values are shallowly embedded as the inductive type
`Val`; Python dicts are modelled as association lists over `String` keys (real
Python dicts are duplicate-free; all operations below treat duplicate keys
uniformly so that they agree with Python on every duplicate-free list).  CPython 2
dict iteration order is hash-dependent and unobservable through dict equality; the
embedding fixes literal/insertion order, and no theorem below depends on a
multi-key ordering.  Fallible Python code is embedded in `Except Err`; the
recursive converters take a fuel argument (structural recursion on `Nat`) and the
public wrappers pass `vsize input + 1`, which always suffices because every
recursive call of the source is on a strict subterm of the (deep-copied) input.
-/

namespace Granary

/-- A Python JSON-like value: None, bool, int, str, list, or a str-keyed dict. -/
inductive Val where
  | none : Val
  | bool (b : Bool) : Val
  | int (n : Int) : Val
  | str (s : String) : Val
  | list (l : List Val) : Val
  | dict (d : List (String × Val)) : Val
deriving Repr

mutual
/-- Size of a value, used as recursion fuel by the fuel-based functions below
(the auto-derived SizeOf of the nested inductive is not executable). -/
def vsize : Val → Nat
  | .none => 1
  | .bool _ => 1
  | .int _ => 1
  | .str _ => 1
  | .list l => 1 + vsizeL l
  | .dict d => 1 + vsizeD d

/-- Size of a list of values. -/
def vsizeL : List Val → Nat
  | [] => 1
  | v :: rest => 1 + vsize v + vsizeL rest

/-- Size of a dict entry list. -/
def vsizeD : List (String × Val) → Nat
  | [] => 1
  | (_, v) :: rest => 1 + vsize v + vsizeD rest
end

/-- Errors the source can raise: `ValueError('Expected dict, got ...')` is the
spec's InvalidInputType; AttributeError comes from calling `.get` on a non-dict;
TypeError from hashing an unhashable dict key or iterating a non-iterable.
`fuelExhausted` is an artifact of the fuel-based embedding, unreachable when the
fuel exceeds the input's size. -/
inductive Err where
  | valueError : Err
  | attributeError : Err
  | typeError : Err
  | fuelExhausted : Err
deriving DecidableEq, Repr

/-- Python truthiness (`if obj:`). -/
def truthy : Val → Bool
  | .none => false
  | .bool b => b
  | .int n => n != 0
  | .str s => s != ""
  | .list l => !l.isEmpty
  | .dict d => !d.isEmpty

/-- Membership in webutil's NULLS tuple `(None, {}, [], (), '')` (checked with `==`). -/
def isNull : Val → Bool
  | .none => true
  | .str s => s == ""
  | .list l => l.isEmpty
  | .dict d => d.isEmpty
  | _ => false

/-- Dict read, `d.get(k)`: first entry with the given key. -/
def aget {α : Type} : List (String × α) → String → Option α
  | [], _ => Option.none
  | (k, v) :: rest, key => if k = key then some v else aget rest key

/-- Dict write, `d[k] = v`: replace in place if the key exists, else append. -/
def aset {α : Type} (d : List (String × α)) (key : String) (v : α) : List (String × α) :=
  if d.any (fun kv => decide (kv.1 = key)) then
    d.map (fun kv => if kv.1 = key then (key, v) else kv)
  else
    d ++ [(key, v)]

/-- Dict removal, `d.pop(k, None)` / `del d[k]` (key-wise; a Python dict holds a key once). -/
def adel {α : Type} (d : List (String × α)) (key : String) : List (String × α) :=
  d.filter (fun kv => decide (kv.1 ≠ key))

/-- Dict key list, `d.keys()`. -/
def akeys {α : Type} (d : List (String × α)) : List String :=
  d.map Prod.fst

/-- The AS2 context URI constant `CONTEXT`. -/
def CONTEXT : String := "https://www.w3.org/ns/activitystreams"

/-- The `OBJECT_TYPE_TO_TYPE` table, in source literal order. -/
def OBJECT_TYPE_TO_TYPE : List (String × String) := [
  ("article", "Article"),
  ("audio", "Audio"),
  ("collection", "Collection"),
  ("comment", "Note"),
  ("event", "Event"),
  ("image", "Image"),
  ("note", "Note"),
  ("person", "Person"),
  ("place", "Place"),
  ("video", "Video")]

/-- The `VERB_TO_TYPE` table, in source literal order. -/
def VERB_TO_TYPE : List (String × String) := [
  ("favorite", "Favorite"),
  ("invite", "Invite"),
  ("like", "Like"),
  ("post", "Create"),
  ("rsvp-maybe", "TentativeAccept"),
  ("rsvp-no", "Reject"),
  ("rsvp-yes", "Accept"),
  ("share", "Announce"),
  ("tag", "Add"),
  ("update", "Update")]

/-- The source's `_invert`: `dict((v, k) for k, v in d.items())` — later items
overwrite earlier ones on a value collision.  (CPython 2 iterates a dict in hash
order; the embedding iterates in literal order.  The two can differ only on which
of the colliding `comment`/`note` entries survives in `TYPE_TO_OBJECT_TYPE`, and
no theorem below depends on that choice.) -/
def _invert (d : List (String × String)) : List (String × String) :=
  d.foldl (fun acc kv => aset acc kv.2 kv.1) []

/-- `TYPE_TO_OBJECT_TYPE = _invert(OBJECT_TYPE_TO_TYPE)`. -/
def TYPE_TO_OBJECT_TYPE : List (String × String) := _invert OBJECT_TYPE_TO_TYPE

/-- `TYPE_TO_VERB = _invert(VERB_TO_TYPE)`. -/
def TYPE_TO_VERB : List (String × String) := _invert VERB_TO_TYPE

/-- A Python `table.get(x)` where `x` is an arbitrary value: lists and dicts are
unhashable (TypeError); hashable non-strings are simply never keys of the
string-keyed vocabulary tables. -/
def pyTableGet (tbl : List (String × String)) : Val → Except Err (Option String)
  | .list _ => .error .typeError
  | .dict _ => .error .typeError
  | .str s => .ok (aget tbl s)
  | _ => .ok Option.none

/-- A Python `for x in v` over a value: lists iterate elements, strings iterate
their characters (as one-character strings), dicts iterate their keys; None,
bools and ints are not iterable. -/
def iterVal : Val → Except Err (List Val)
  | .list l => .ok l
  | .str s => .ok (s.toList.map (fun c => Val.str (String.singleton c)))
  | .dict d => .ok (d.map (fun kv => Val.str kv.1))
  | _ => .error .typeError

/-- The source's `orig.get('url')`: only dicts have `.get`. -/
def pyGetUrl : Val → Except Err Val
  | .dict d => .ok ((aget d "url").getD .none)
  | _ => .error .attributeError

/-- Modelled from the spec: the external list-coercion primitives
`util.get_list` / `util.pop_list` (oauth_dropins.webutil, not in this repository).
Per section 6 of the spec: absent key yields an empty list, a list value is
returned unchanged, any single value becomes a one-element list.  (`pop_list`
additionally removes the key; the converters below account for the removal with
`adel` when assembling their output.) -/
def get_list (d : List (String × Val)) (k : String) : List Val :=
  match aget d k with
  | Option.none => []
  | some (.list l) => l
  | some v => [v]

/-- Modelled from the spec: the external trimming primitive `util.trim_nulls`
(oauth_dropins.webutil, not in this repository).  Per section 6 of the spec it
recursively removes mapping keys whose (trimmed) value is null, empty string,
empty list or empty mapping, producing a minimal equivalent tree; the source also
applies it to bare lists (the `inReplyTo` URL list), where null entries are
dropped.  Fuel-based; the wrapper `trim_nulls` supplies sufficient fuel. -/
def trimNullsF (f : Nat) (v : Val) : Val :=
  match v with
  | .list l =>
    match f with
    | 0 => .list l
    | f' + 1 => .list ((l.map (fun e => trimNullsF f' e)).filter (fun tv => !isNull tv))
  | .dict d =>
    match f with
    | 0 => .dict d
    | f' + 1 => .dict ((d.map (fun kv => (kv.1, trimNullsF f' kv.2))).filter (fun kv => !isNull kv.2))
  | other => other

/-- Wrapper for `trimNullsF` with always-sufficient fuel. -/
def trim_nulls (v : Val) : Val := trimNullsF (vsize v + 1) v

/-- Option-to-value coercion: a missed table lookup is Python `None`. -/
def optStrVal : Option String → Val
  | some s => .str s
  | Option.none => .none

/-- The collapse rule at the end of `from_as1` (lines 95-96): if the only
remaining key after trimming is `url`, return the bare URL value. -/
def collapseUrl : Val → Val
  | .dict td => if akeys td == ["url"] then (aget td "url").getD .none else .dict td
  | v => v

/-- Type resolution of `from_as1` (lines 65-69): look up `verb or objectType`
(Python truthiness) in `OBJECT_TYPE_TO_TYPE`, then `VERB_TO_TYPE`, then fall back
to the caller's default `type` argument. -/
def resolveType (verb objType : Val) (dflt : Option String) : Except Err (Option String) := do
  let key := if truthy verb then verb else objType
  let a ← pyTableGet OBJECT_TYPE_TO_TYPE key
  let b ← pyTableGet VERB_TO_TYPE key
  pure (if (a.getD "") != "" then a else if (b.getD "") != "" then b else dflt)

/-- The membership test `obj['objectType'] in ('note', 'article')`. -/
def isNoteOrArticle : Val → Bool
  | .str s => s == "note" || s == "article"
  | _ => false

/-- The `use_type` block of `to_as1` (lines 120-128): resolve `objectType` and
`verb` from the popped `type` via both inverse tables, then apply the two
disambiguation rules in order (reply context forces `comment`; a verb without an
objectType forces `activity`).  Returns the final (objectType, verb) entries. -/
def vocabFields (tyVal inReplyToVal : Val) : Except Err (Val × Val) := do
  let ot ← pyTableGet TYPE_TO_OBJECT_TYPE tyVal
  let vb ← pyTableGet TYPE_TO_VERB tyVal
  let otV := optStrVal ot
  let vbV := optStrVal vb
  let otV2 := if truthy inReplyToVal && isNoteOrArticle otV then Val.str "comment"
    else if truthy vbV && !truthy otV then Val.str "activity"
    else otV
  pure (otV2, vbV)

/-- Top-level dict lookup on a converter result. -/
def topGet : Val → String → Option Val
  | .dict d, k => aget d k
  | _, _ => Option.none

/-- Whether a key occurs anywhere in a tree (any nesting depth). -/
def hasKeyDeepF (f : Nat) (v : Val) (key : String) : Bool :=
  match v with
  | .dict d =>
    match f with
    | 0 => false
    | f' + 1 => d.any (fun kv => kv.1 == key || hasKeyDeepF f' kv.2 key)
  | .list l =>
    match f with
    | 0 => false
    | f' + 1 => l.any (fun e => hasKeyDeepF f' e key)
  | _ => false

/-- Wrapper for `hasKeyDeepF` with always-sufficient fuel. -/
def hasKeyDeep (v : Val) (key : String) : Bool := hasKeyDeepF (vsize v + 1) v key

/-- The body of `from_as1` (source lines 47-98).  `copy.deepcopy` is the identity
under value semantics.  Every key the body reads (`verb`, `objectType`,
`displayName`, `actor`, `attachments`, `author`, `image`, `inReplyTo`, `object`,
`tags`, `location`) is read at most once and is distinct from every key written
before that read (`@context` and the `update` keys), so each read below takes the
original entry of `d`; the pops and writes are applied when the output dict is
assembled (`d1`-`d5`), in source order.  Fails exactly where the source raises;
steps are sequenced in the source's evaluation order, so the surfaced error is
the same one Python raises first. -/
def fromAs1CoreF (f : Nat) (obj : Val) (type context : Option String) : Except Err Val :=
  if truthy obj then
    match obj with
    | .dict d =>
      match f with
      | 0 => .error .fuelExhausted
      | f' + 1 => do
        let ty ← resolveType ((aget d "verb").getD .none) ((aget d "objectType").getD .none) type
        let d1 := adel (adel d "verb") "objectType"
        let d2 := if truthy (optStrVal context) then aset d1 "@context" (.str CONTEXT) else d1
        let nameV := (aget d "displayName").getD .none
        let actorV ← (fromAs1CoreF f' ((aget d "actor").getD .none) Option.none Option.none).map collapseUrl
        let attachmentV ← (get_list d "attachments").mapM
          (fun e => (fromAs1CoreF f' e Option.none Option.none).map collapseUrl)
        let attributedToV ← (get_list d "author").mapM
          (fun e => (fromAs1CoreF f' e (some "Person") Option.none).map collapseUrl)
        let imageV ← (get_list d "image").mapM
          (fun e => (fromAs1CoreF f' e (some "Image") Option.none).map collapseUrl)
        let origs ← iterVal ((aget d "inReplyTo").getD (.list []))
        let urls ← origs.mapM pyGetUrl
        let objectV ← (fromAs1CoreF f' ((aget d "object").getD .none) Option.none Option.none).map collapseUrl
        let tagV ← (get_list d "tags").mapM
          (fun e => (fromAs1CoreF f' e Option.none Option.none).map collapseUrl)
        let d3 := adel (adel (adel (adel (adel d2 "displayName") "attachments") "author") "image") "tags"
        let d4 :=
          aset (aset (aset (aset (aset (aset (aset (aset (aset d3
            "type" (optStrVal ty))
            "name" nameV)
            "actor" actorV)
            "attachment" (.list attachmentV))
            "attributedTo" (.list attributedToV))
            "image" (.list imageV))
            "inReplyTo" (trim_nulls (.list urls)))
            "object" objectV)
            "tag" (.list tagV)
        let locV := (aget d "location").getD .none
        let d5 ← if truthy locV then
            (fromAs1CoreF f' locV (some "Place") Option.none).map
              (fun lv => aset d4 "location" (collapseUrl lv))
          else pure d4
        pure (trim_nulls (.dict d5))
    | _ => .error .valueError
  else .ok (.dict [])

/-- `from_as1(obj, type=None, context=CONTEXT)`: the body followed by the
url-collapse rule. -/
def from_as1 (obj : Val) (type : Option String := Option.none)
    (context : Option String := some CONTEXT) : Except Err Val :=
  (fromAs1CoreF (vsize obj + 1) obj type context).map collapseUrl

/-- The `attributedTo` → `author` step of `to_as1` (source lines 147-152),
factored over the recursive converter `conv`: keep only the first value as
`author`; if further values are present, emit one warning naming the dropped
values (a warning is modelled as the list of values it names), logged before the
kept value is converted. -/
def authorStep (conv : Val → Except Err (Val × List (List Val)))
    (d : List (String × Val)) (attrib : List Val) :
    Except Err (List (String × Val) × List (List Val)) :=
  match attrib with
  | [] => .ok (d, [])
  | a :: rest =>
    (conv a).map (fun p => (aset d "author" p.1, (if rest.isEmpty then [] else [rest]) ++ p.2))

/-- The body of `to_as1` (source lines 101-154), returning the converted value
together with the warnings logged, in logging order.  The same read/write
disjointness as in `fromAs1CoreF` lets every read take the original entry of
`d`; `url_or_as1` is inlined at its two use sites (`inReplyTo` elements and
`location`). -/
def toAs1CoreF (f : Nat) (obj : Val) (use_type : Bool) :
    Except Err (Val × List (List Val)) :=
  if truthy obj then
    match obj with
    | .str s => .ok (.dict [("url", .str s)], [])
    | .dict d =>
      match f with
      | 0 => .error .fuelExhausted
      | f' + 1 => do
        let d0 := adel d "@context"
        let tyVal := (aget d "type").getD .none
        let d1 := adel d0 "type"
        let d2 ← if use_type then
            (vocabFields tyVal ((aget d "inReplyTo").getD .none)).map
              (fun p => aset (aset d1 "objectType" p.1) "verb" p.2)
          else pure d1
        let nameV := (aget d "name").getD .none
        let actorP ← toAs1CoreF f' ((aget d "actor").getD .none) true
        let attachmentsP ← (get_list d "attachment").mapM (fun e => toAs1CoreF f' e true)
        let imgs ← iterVal ((aget d "image").getD (.list []))
        let imageP ← imgs.mapM (fun e => toAs1CoreF f' e false)
        let inReplyToP ← (get_list d "inReplyTo").mapM (fun e =>
          match e with
          | .str s => .ok ((.dict [("url", .str s)] : Val), ([] : List (List Val)))
          | _ => toAs1CoreF f' e true)
        let locationP ← (match (aget d "location").getD .none with
          | .str s => .ok ((.dict [("url", .str s)] : Val), ([] : List (List Val)))
          | v => toAs1CoreF f' v true)
        let objectP ← toAs1CoreF f' ((aget d "object").getD .none) true
        let tagsP ← (get_list d "tag").mapM (fun e => toAs1CoreF f' e true)
        let d3 := adel (adel (adel d2 "name") "attachment") "tag"
        let d4 :=
          aset (aset (aset (aset (aset (aset (aset (aset d3
            "displayName" nameV)
            "actor" actorP.1)
            "attachments" (.list (attachmentsP.map Prod.fst)))
            "image" (.list (imageP.map Prod.fst)))
            "inReplyTo" (.list (inReplyToP.map Prod.fst)))
            "location" locationP.1)
            "object" objectP.1)
            "tags" (.list (tagsP.map Prod.fst))
        let attrib := get_list d "attributedTo"
        let d5 := adel d4 "attributedTo"
        let finalP ← authorStep (fun a => toAs1CoreF f' a true) d5 attrib
        pure (trim_nulls (.dict finalP.1),
          actorP.2 ++ (attachmentsP.map Prod.snd).flatten ++ (imageP.map Prod.snd).flatten
          ++ (inReplyToP.map Prod.snd).flatten ++ locationP.2 ++ objectP.2
          ++ (tagsP.map Prod.snd).flatten ++ finalP.2)
    | _ => .error .valueError
  else .ok (.dict [], [])

/-- `to_as1(obj, use_type=True)` together with the warnings it logs. -/
def to_as1W (obj : Val) (use_type : Bool := true) : Except Err (Val × List (List Val)) :=
  toAs1CoreF (vsize obj + 1) obj use_type

/-- Value component of `to_as1`. -/
def to_as1 (obj : Val) (use_type : Bool := true) : Except Err Val :=
  (to_as1W obj use_type).map Prod.fst

/-- Warnings of `to_as1` (each warning names the attributedTo values it drops). -/
def to_as1Warnings (obj : Val) (use_type : Bool := true) : Except Err (List (List Val)) :=
  (to_as1W obj use_type).map Prod.snd

/-- Whether a value is a Python dict. -/
def isDict : Val → Bool
  | .dict _ => true
  | _ => false

/-- Whether a value is a Python string. -/
def isStr : Val → Bool
  | .str _ => true
  | _ => false

/-- Whether a value is a Python list. -/
def isList : Val → Bool
  | .list _ => true
  | _ => false

theorem eBind_ok {α β : Type} {x : Except Err α} {g : α → Except Err β} {b : β}
    (h : x >>= g = .ok b) : ∃ a, x = .ok a ∧ g a = .ok b := by
  cases x with
  | error e => simp [Bind.bind, Except.bind] at h
  | ok a => exact ⟨a, rfl, by simpa [Bind.bind, Except.bind] using h⟩

theorem eMap_ok {α β : Type} {x : Except Err α} {g : α → β} {b : β}
    (h : x.map g = .ok b) : ∃ a, x = .ok a ∧ g a = b := by
  cases x with
  | error e => simp [Except.map] at h
  | ok a => exact ⟨a, rfl, by simpa [Except.map] using h⟩

theorem ePure_ok {α : Type} {a b : α} (h : (pure a : Except Err α) = .ok b) : a = b := by
  simpa [pure, Except.pure] using h

theorem aget_cons {α : Type} (k0 : String) (v0 : α) (rest : List (String × α)) (k : String) :
    aget ((k0, v0) :: rest) k = if k0 = k then some v0 else aget rest k := rfl

theorem adel_cons {α : Type} (k0 : String) (v0 : α) (rest : List (String × α)) (key : String) :
    adel ((k0, v0) :: rest) key
      = if k0 = key then adel rest key else (k0, v0) :: adel rest key := by
  by_cases h : k0 = key <;> simp [adel, List.filter_cons, h]

theorem aget_map_replace {α : Type} (d : List (String × α)) (key k : String) (v : α)
    (h : key ≠ k) :
    aget (d.map (fun kv => if kv.1 = key then (key, v) else kv)) k = aget d k := by
  induction d with
  | nil => rfl
  | cons kv rest ih =>
    obtain ⟨k0, v0⟩ := kv
    by_cases h0 : k0 = key
    · subst h0
      simp [aget_cons, h, ih]
    · simp [aget_cons, h0, ih]

theorem aget_append_one {α : Type} (d : List (String × α)) (key k : String) (v : α)
    (h : key ≠ k) : aget (d ++ [(key, v)]) k = aget d k := by
  induction d with
  | nil => simp [aget, aget_cons, h]
  | cons kv rest ih =>
    obtain ⟨k0, v0⟩ := kv
    simp [List.cons_append, aget_cons, ih]

theorem aget_aset_ne {α : Type} (d : List (String × α)) (key k : String) (v : α)
    (h : key ≠ k) : aget (aset d key v) k = aget d k := by
  unfold aset
  by_cases hany : d.any (fun kv => decide (kv.1 = key))
  · simp only [hany, if_true, aget_map_replace d key k v h]
  · simp only [hany, Bool.false_eq_true, if_false, aget_append_one d key k v h]

theorem aget_adel_self {α : Type} (d : List (String × α)) (key : String) :
    aget (adel d key) key = Option.none := by
  induction d with
  | nil => rfl
  | cons kv rest ih =>
    obtain ⟨k0, v0⟩ := kv
    by_cases h0 : k0 = key
    · simp [adel_cons, h0, ih]
    · simp [adel_cons, h0, aget_cons, ih]

theorem aget_adel_ne {α : Type} (d : List (String × α)) (key k : String)
    (h : key ≠ k) : aget (adel d key) k = aget d k := by
  induction d with
  | nil => rfl
  | cons kv rest ih =>
    obtain ⟨k0, v0⟩ := kv
    by_cases h0 : k0 = key
    · subst h0
      simp [adel_cons, aget_cons, h, ih]
    · simp [adel_cons, h0, aget_cons, ih]

theorem aget_map_filter_none {α β : Type} (d : List (String × α)) (k : String)
    (g : String × α → β) (p : String × β → Bool)
    (h : aget d k = Option.none) :
    aget ((d.map (fun kv => (kv.1, g kv))).filter p) k = Option.none := by
  induction d with
  | nil => rfl
  | cons kv rest ih =>
    obtain ⟨k0, v0⟩ := kv
    have h0 : k0 ≠ k := by
      intro hc
      simp [aget_cons, if_pos hc] at h
    have hrest : aget rest k = Option.none := by simpa [aget_cons, h0] using h
    by_cases hp : p (k0, g (k0, v0))
    · simp [List.filter_cons, hp, aget_cons, h0, ih hrest]
    · simp [List.filter_cons, hp, ih hrest]

theorem trim_nulls_def (v : Val) : trim_nulls v = trimNullsF (vsize v + 1) v := rfl

theorem trimNullsF_dict_succ (f : Nat) (d : List (String × Val)) :
    trimNullsF (f + 1) (.dict d)
      = .dict ((d.map (fun kv => (kv.1, trimNullsF f kv.2))).filter (fun kv => !isNull kv.2)) := rfl

theorem trimNullsF_list_succ (f : Nat) (l : List Val) :
    trimNullsF (f + 1) (.list l)
      = .list ((l.map (fun e => trimNullsF f e)).filter (fun tv => !isNull tv)) := rfl

theorem trimNullsF_str (f : Nat) (s : String) : trimNullsF f (.str s) = .str s := by
  cases f <;> rfl

theorem trimNullsF_none (f : Nat) : trimNullsF f .none = .none := by
  cases f <;> rfl

theorem trimNullsF_bool (f : Nat) (b : Bool) : trimNullsF f (.bool b) = .bool b := by
  cases f <;> rfl

theorem trimNullsF_int (f : Nat) (n : Int) : trimNullsF f (.int n) = .int n := by
  cases f <;> rfl

theorem trimNullsF_list_nil (f : Nat) : trimNullsF f (.list []) = .list [] := by
  cases f <;> rfl

theorem trimNullsF_dict_nil (f : Nat) : trimNullsF f (.dict []) = .dict [] := by
  cases f <;> rfl

theorem topGet_trim_dict_none (d : List (String × Val)) (k : String)
    (h : aget d k = Option.none) :
    topGet (trim_nulls (.dict d)) k = Option.none := by
  rw [trim_nulls_def, trimNullsF_dict_succ]
  exact aget_map_filter_none d k _ _ h

theorem fromAs1CoreF_falsy (f : Nat) (v : Val) (ty ctx : Option String)
    (h : truthy v = false) : fromAs1CoreF f v ty ctx = .ok (.dict []) := by
  rw [fromAs1CoreF.eq_def]
  simp [h]

theorem toAs1CoreF_falsy (f : Nat) (v : Val) (u : Bool)
    (h : truthy v = false) : toAs1CoreF f v u = .ok (.dict [], []) := by
  rw [toAs1CoreF.eq_def]
  simp [h]

theorem toAs1CoreF_str (f : Nat) (s : String) (u : Bool) (h : s ≠ "") :
    toAs1CoreF f (.str s) u = .ok (.dict [("url", .str s)], []) := by
  have ht : truthy (.str s) = true := by simpa [truthy] using h
  rw [toAs1CoreF.eq_def]
  simp [ht]

theorem fromAs1CoreF_nondict (f : Nat) (v : Val) (ty ctx : Option String)
    (h1 : truthy v = true) (h2 : isDict v = false) :
    fromAs1CoreF f v ty ctx = .error .valueError := by
  rw [fromAs1CoreF.eq_def]
  cases v <;> simp_all [isDict]

theorem toAs1CoreF_nondict (f : Nat) (v : Val) (u : Bool)
    (h1 : truthy v = true) (h2 : isDict v = false) (h3 : isStr v = false) :
    toAs1CoreF f v u = .error .valueError := by
  rw [toAs1CoreF.eq_def]
  cases v <;> simp_all [isDict, isStr]

theorem aget_map_replace_self {α : Type} (d : List (String × α)) (key : String) (v : α)
    (hany : d.any (fun kv => decide (kv.1 = key)) = true) :
    aget (d.map (fun kv => if kv.1 = key then (key, v) else kv)) key = some v := by
  induction d with
  | nil => simp at hany
  | cons kv rest ih =>
    obtain ⟨k0, v0⟩ := kv
    by_cases h0 : k0 = key
    · simp [h0, aget_cons]
    · have hrest : rest.any (fun kv => decide (kv.1 = key)) = true := by
        simpa [List.any_cons, h0] using hany
      simp [h0, aget_cons, ih hrest]

theorem aget_none_of_not_any {α : Type} (d : List (String × α)) (key : String)
    (h : d.any (fun kv => decide (kv.1 = key)) = false) : aget d key = Option.none := by
  induction d with
  | nil => rfl
  | cons kv rest ih =>
    obtain ⟨k0, v0⟩ := kv
    have h0 : k0 ≠ key := by
      intro hc
      simp [List.any_cons, hc] at h
    have hrest : rest.any (fun kv => decide (kv.1 = key)) = false := by
      simpa [List.any_cons, h0] using h
    simp [aget_cons, h0, ih hrest]

theorem aget_append_self {α : Type} (d : List (String × α)) (key : String) (v : α)
    (hnone : aget d key = Option.none) :
    aget (d ++ [(key, v)]) key = some v := by
  induction d with
  | nil => simp [aget, aget_cons]
  | cons kv rest ih =>
    obtain ⟨k0, v0⟩ := kv
    have h0 : k0 ≠ key := by
      intro hc
      simp [aget_cons, if_pos hc] at hnone
    have hrest : aget rest key = Option.none := by simpa [aget_cons, h0] using hnone
    simp [List.cons_append, aget_cons, h0, ih hrest]

theorem aget_aset_self {α : Type} (d : List (String × α)) (key : String) (v : α) :
    aget (aset d key v) key = some v := by
  unfold aset
  cases hany : d.any (fun kv => decide (kv.1 = key)) with
  | true => simp only [hany, if_true, aget_map_replace_self d key v hany]
  | false =>
    simp only [hany, Bool.false_eq_true, if_false]
    exact aget_append_self d key v (aget_none_of_not_any d key hany)

theorem aget_aset {α : Type} (d : List (String × α)) (key k : String) (v : α) :
    aget (aset d key v) k = if key = k then some v else aget d k := by
  by_cases h : key = k
  · subst h
    simp [aget_aset_self]
  · simp [h, aget_aset_ne d key k v h]

theorem aget_adel {α : Type} (d : List (String × α)) (key k : String) :
    aget (adel d key) k = if key = k then Option.none else aget d k := by
  by_cases h : key = k
  · subst h
    simp [aget_adel_self]
  · simp [h, aget_adel_ne d key k h]

theorem fromAs1CoreF_ok_popped_none (f : Nat) (v : Val) (ty ctx : Option String) (r : Val)
    (k : String) (hdel : k = "verb" ∨ k = "objectType")
    (h : fromAs1CoreF f v ty ctx = .ok r) :
    topGet r k = Option.none := by
  cases htr : truthy v with
  | false =>
    rw [fromAs1CoreF.eq_def] at h
    simp [htr] at h
    rcases hdel with hk | hk <;> subst hk <;> simp [← h, topGet, aget]
  | true =>
    cases v with
    | none => simp [truthy] at htr
    | bool b => exact absurd h (by rw [fromAs1CoreF.eq_def]; simp [htr])
    | int n => exact absurd h (by rw [fromAs1CoreF.eq_def]; simp [htr])
    | str s => exact absurd h (by rw [fromAs1CoreF.eq_def]; simp [htr])
    | list l => exact absurd h (by rw [fromAs1CoreF.eq_def]; simp [htr])
    | dict d =>
      cases f with
      | zero =>
        rw [fromAs1CoreF.eq_def] at h
        simp [htr] at h
      | succ f' =>
        rw [fromAs1CoreF.eq_def] at h
        simp only [htr, if_true] at h
        obtain ⟨ty1, hty, h⟩ := eBind_ok h
        obtain ⟨actorV, hact, h⟩ := eBind_ok h
        obtain ⟨attachmentV, hatt, h⟩ := eBind_ok h
        obtain ⟨attributedToV, hatr, h⟩ := eBind_ok h
        obtain ⟨imageV, himg, h⟩ := eBind_ok h
        obtain ⟨origs, horig, h⟩ := eBind_ok h
        obtain ⟨urls, hurls, h⟩ := eBind_ok h
        obtain ⟨objectV, hobj, h⟩ := eBind_ok h
        obtain ⟨tagV, htag, h⟩ := eBind_ok h
        cases hloc : truthy ((aget d "location").getD Val.none) with
        | true =>
          rw [hloc] at h
          simp only [if_true] at h
          obtain ⟨y, hy, h⟩ := eBind_ok h
          obtain ⟨lv, hlv, hy2⟩ := eMap_ok hy
          have hr := ePure_ok h
          subst hr
          rw [← hy2]
          apply topGet_trim_dict_none
          rcases hdel with hk | hk <;> subst hk <;> simp [aget_aset, aget_adel] <;>
            split <;> simp [aget_aset, aget_adel]
        | false =>
          rw [hloc] at h
          simp only [Bool.false_eq_true, if_false] at h
          obtain ⟨y, hy, h⟩ := eBind_ok h
          have hy2 := ePure_ok hy
          have hr := ePure_ok h
          subst hr
          rw [← hy2]
          apply topGet_trim_dict_none
          rcases hdel with hk | hk <;> subst hk <;> simp [aget_aset, aget_adel] <;>
            split <;> simp [aget_aset, aget_adel]

theorem authorStep_ok_aget {conv : Val → Except Err (Val × List (List Val))}
    {d : List (String × Val)} {attrib : List Val} {p : List (String × Val) × List (List Val)}
    (h : authorStep conv d attrib = .ok p) (k : String) (hk : k ≠ "author") :
    aget p.1 k = aget d k := by
  cases attrib with
  | nil =>
    simp [authorStep] at h
    rw [← h]
  | cons a rest =>
    obtain ⟨q, hq, hp⟩ := eMap_ok h
    rw [← hp]
    exact aget_aset_ne d "author" k q.1 (Ne.symm hk)

theorem toAs1CoreF_ok_popped_none (f : Nat) (v : Val) (u : Bool) (p : Val × List (List Val))
    (k : String) (hdel : k = "@context" ∨ k = "type" ∨ k = "attributedTo")
    (h : toAs1CoreF f v u = .ok p) :
    topGet p.1 k = Option.none := by
  cases htr : truthy v with
  | false =>
    rw [toAs1CoreF.eq_def] at h
    simp [htr] at h
    rw [← h]
    simp [topGet, aget]
  | true =>
    cases v with
    | none => simp [truthy] at htr
    | bool b => exact absurd h (by rw [toAs1CoreF.eq_def]; simp [htr])
    | int n => exact absurd h (by rw [toAs1CoreF.eq_def]; simp [htr])
    | list l => exact absurd h (by rw [toAs1CoreF.eq_def]; simp [htr])
    | str s =>
      rw [toAs1CoreF.eq_def] at h
      simp [htr] at h
      rw [← h]
      rcases hdel with hk | hk | hk <;> subst hk <;> simp [topGet, aget_cons, aget]
    | dict d =>
      cases f with
      | zero =>
        rw [toAs1CoreF.eq_def] at h
        simp [htr] at h
      | succ f' =>
        rw [toAs1CoreF.eq_def] at h
        simp only [htr, if_true] at h
        have hkA : k ≠ "author" := by
          rcases hdel with hk | hk | hk <;> subst hk <;> decide
        cases u with
        | true =>
          rw [if_pos rfl] at h
          obtain ⟨d2, hd2, h⟩ := eBind_ok h
          obtain ⟨actorP, hact, h⟩ := eBind_ok h
          obtain ⟨attachmentsP, hatt, h⟩ := eBind_ok h
          obtain ⟨imgs, himgs, h⟩ := eBind_ok h
          obtain ⟨imageP, himg, h⟩ := eBind_ok h
          obtain ⟨inReplyToP, hirt, h⟩ := eBind_ok h
          obtain ⟨locationP, hlocp, h⟩ := eBind_ok h
          obtain ⟨objectP, hobj, h⟩ := eBind_ok h
          obtain ⟨tagsP, htags, h⟩ := eBind_ok h
          obtain ⟨finalP, hfin, h⟩ := eBind_ok h
          have hr := ePure_ok h
          rw [← hr]
          show topGet (trim_nulls (.dict finalP.1)) k = Option.none
          apply topGet_trim_dict_none
          rw [authorStep_ok_aget hfin k hkA]
          obtain ⟨vp, hvp, hd2e⟩ := eMap_ok hd2
          rw [← hd2e]
          rcases hdel with hk | hk | hk <;> subst hk <;> simp [aget_aset, aget_adel]
        | false =>
          rw [if_neg (by decide)] at h
          obtain ⟨d1v, hd1, h⟩ := eBind_ok h
          obtain ⟨actorP, hact, h⟩ := eBind_ok h
          obtain ⟨attachmentsP, hatt, h⟩ := eBind_ok h
          obtain ⟨imgs, himgs, h⟩ := eBind_ok h
          obtain ⟨imageP, himg, h⟩ := eBind_ok h
          obtain ⟨inReplyToP, hirt, h⟩ := eBind_ok h
          obtain ⟨locationP, hlocp, h⟩ := eBind_ok h
          obtain ⟨objectP, hobj, h⟩ := eBind_ok h
          obtain ⟨tagsP, htags, h⟩ := eBind_ok h
          obtain ⟨finalP, hfin, h⟩ := eBind_ok h
          have hr := ePure_ok h
          rw [← hr]
          show topGet (trim_nulls (.dict finalP.1)) k = Option.none
          apply topGet_trim_dict_none
          rw [authorStep_ok_aget hfin k hkA]
          rcases hdel with hk | hk | hk <;> subst hk <;>
            simp [aget_aset, aget_adel, ← ePure_ok hd1]

/-- C4: `from_as1` always stamps the constant `CONTEXT` as `@context`, not the
caller-supplied context URI: with context `"http://other"` the output still
carries the AS2 constant (contradicting the docstring "context: string, included
as @context"); the nested recursively-converted `object` carries no `@context`;
with a null context no `@context` is added. -/
theorem c4_context_constant :
    from_as1 (.dict [("displayName", .str "x")]) Option.none (some "http://other")
      = .ok (.dict [("@context", .str CONTEXT), ("name", .str "x")])
    ∧ CONTEXT ≠ "http://other"
    ∧ from_as1 (.dict [("object", .dict [("displayName", .str "x")])]) Option.none (some CONTEXT)
      = .ok (.dict [("object", .dict [("name", .str "x")]), ("@context", .str CONTEXT)])
    ∧ from_as1 (.dict [("displayName", .str "x")]) Option.none Option.none
      = .ok (.dict [("name", .str "x")]) :=
  ⟨rfl, by decide, rfl, rfl⟩

/-- C6: the claim that no two source keys collide is false for
`OBJECT_TYPE_TO_TYPE`: both `comment` and `note` map to `Note`. -/
theorem c6_counterexample :
    aget OBJECT_TYPE_TO_TYPE "comment" = some "Note"
    ∧ aget OBJECT_TYPE_TO_TYPE "note" = some "Note"
    ∧ ("comment" : String) ≠ "note" := by
  decide

/-- C6 (amended): `VERB_TO_TYPE` has pairwise-distinct values, so flipping it
loses no entry (its inverse has the same length); `OBJECT_TYPE_TO_TYPE` does not
— its only value collision is between the `comment` and `note` keys (both map to
`Note`), so flipping it loses exactly one entry, and the surviving `Note` entry
is one of the two colliding keys. -/
theorem c6_inversion_lossiness :
    List.Pairwise (fun a b : String × String => a.2 ≠ b.2) VERB_TO_TYPE
    ∧ TYPE_TO_VERB.length = VERB_TO_TYPE.length
    ∧ ¬ List.Pairwise (fun a b : String × String => a.2 ≠ b.2) OBJECT_TYPE_TO_TYPE
    ∧ TYPE_TO_OBJECT_TYPE.length + 1 = OBJECT_TYPE_TO_TYPE.length
    ∧ (∀ a ∈ OBJECT_TYPE_TO_TYPE, ∀ b ∈ OBJECT_TYPE_TO_TYPE, a.2 = b.2 →
        a.1 = b.1 ∨ ((a.1 = "comment" ∨ a.1 = "note") ∧ (b.1 = "comment" ∨ b.1 = "note")))
    ∧ (aget TYPE_TO_OBJECT_TYPE "Note" = some "note"
        ∨ aget TYPE_TO_OBJECT_TYPE "Note" = some "comment") := by
  decide

/-- C2: the claim that no error beyond InvalidInputType is ever raised and that
all malformed nested shapes degrade gracefully is false: a non-empty mapping
whose `actor` is a bare string makes `from_as1` raise (the recursive call gets a
truthy non-mapping). -/
theorem c2_counterexample :
    from_as1 (.dict [("actor", .str "http://a")]) Option.none (some CONTEXT)
      = .error .valueError
    ∧ isDict (.dict [("actor", .str "http://a")]) = true :=
  ⟨rfl, rfl⟩

/-- C2 (amended): a falsy input makes either transformer return the empty
mapping; a truthy non-mapping (non-string for `to_as1`) input raises the
InvalidInputType ValueError; a non-empty string input to `to_as1` yields the url
wrapping; unknown vocabulary values degrade gracefully; but malformed nested
shapes are not all graceful: errors propagate out of nested conversions
(ValueError), a non-mapping `inReplyTo` element raises AttributeError in
`from_as1`, and an unhashable `type` raises TypeError in `to_as1`. -/
theorem c2_errors :
    (∀ (v : Val) (ty ctx : Option String), truthy v = false →
      from_as1 v ty ctx = .ok (.dict []))
    ∧ (∀ (v : Val) (u : Bool), truthy v = false → to_as1 v u = .ok (.dict []))
    ∧ (∀ (s : String) (u : Bool), s ≠ "" →
      to_as1 (.str s) u = .ok (.dict [("url", .str s)]))
    ∧ (∀ (v : Val) (ty ctx : Option String), truthy v = true → isDict v = false →
      from_as1 v ty ctx = .error .valueError)
    ∧ (∀ (v : Val) (u : Bool), truthy v = true → isDict v = false → isStr v = false →
      to_as1 v u = .error .valueError)
    ∧ from_as1 (.dict [("objectType", .str "florb")]) Option.none (some CONTEXT)
      = .ok (.dict [("@context", .str CONTEXT)])
    ∧ from_as1 (.dict [("inReplyTo", .list [.str "http://x"])]) Option.none (some CONTEXT)
      = .error .attributeError
    ∧ to_as1 (.dict [("type", .list [])]) true = .error .typeError := by
  refine ⟨?_, ?_, ?_, ?_, ?_, rfl, rfl, rfl⟩
  · intro v ty ctx h
    show (fromAs1CoreF (vsize v + 1) v ty ctx).map collapseUrl = .ok (.dict [])
    rw [fromAs1CoreF_falsy _ _ _ _ h]
    rfl
  · intro v u h
    show (toAs1CoreF (vsize v + 1) v u).map Prod.fst = .ok (.dict [])
    rw [toAs1CoreF_falsy _ _ _ h]
    rfl
  · intro s u h
    show (toAs1CoreF (vsize (Val.str s) + 1) (.str s) u).map Prod.fst
      = .ok (.dict [("url", .str s)])
    rw [toAs1CoreF_str _ _ _ h]
    rfl
  · intro v ty ctx h1 h2
    show (fromAs1CoreF (vsize v + 1) v ty ctx).map collapseUrl = .error .valueError
    rw [fromAs1CoreF_nondict _ _ _ _ h1 h2]
    rfl
  · intro v u h1 h2 h3
    show (toAs1CoreF (vsize v + 1) v u).map Prod.fst = .error .valueError
    rw [toAs1CoreF_nondict _ _ _ h1 h2 h3]
    rfl

/-- C2 (witness): the amended statement applied at concrete inputs. -/
theorem c2_errors_witness :
    from_as1 Val.none Option.none (some CONTEXT) = .ok (.dict [])
    ∧ from_as1 (.str "x") Option.none (some CONTEXT) = .error .valueError
    ∧ to_as1 (.list [.dict []]) true = .error .valueError
    ∧ to_as1 (.str "http://x") true = .ok (.dict [("url", .str "http://x")]) :=
  ⟨c2_errors.1 Val.none Option.none (some CONTEXT) rfl,
   c2_errors.2.2.2.1 (.str "x") Option.none (some CONTEXT) rfl rfl,
   c2_errors.2.2.2.2.1 (.list [.dict []]) true rfl rfl rfl,
   c2_errors.2.2.1 "http://x" true (by decide)⟩

/-- C3: with vocabulary population enabled, after looking the popped `type` up in
both inverse tables, a truthy `inReplyTo` together with a resolved objectType of
`note` or `article` forces objectType `comment`; otherwise a resolved (truthy)
verb with no resolved objectType forces objectType `activity`; in particular
`to_as1` maps `{type: Note, inReplyTo: [url]}` to objectType `comment` and
`{type: Like}` to verb `like` with objectType `activity`. -/
theorem c3_disambiguation :
    (∀ (tyV irt : Val) (ot vb : Option String) (p : Val × Val),
      pyTableGet TYPE_TO_OBJECT_TYPE tyV = .ok ot →
      pyTableGet TYPE_TO_VERB tyV = .ok vb →
      vocabFields tyV irt = .ok p →
      ((truthy irt = true → (ot = some "note" ∨ ot = some "article") → p.1 = .str "comment")
        ∧ (truthy (optStrVal vb) = true → ot = Option.none → p.1 = .str "activity")
        ∧ p.2 = optStrVal vb))
    ∧ to_as1 (.dict [("type", .str "Note"), ("inReplyTo", .list [.str "http://orig"])]) true
      = .ok (.dict [("inReplyTo", .list [.dict [("url", .str "http://orig")]]),
          ("objectType", .str "comment")])
    ∧ to_as1 (.dict [("type", .str "Like")]) true
      = .ok (.dict [("objectType", .str "activity"), ("verb", .str "like")]) := by
  refine ⟨?_, rfl, rfl⟩
  intro tyV irt ot vb p h1 h2 h3
  simp only [vocabFields, h1, h2] at h3
  simp [Bind.bind, Except.bind, pure, Except.pure] at h3
  rw [← h3]
  refine ⟨?_, ?_, rfl⟩
  · intro hirt hot
    rcases hot with hot | hot <;> subst hot <;>
      simp [optStrVal, isNoteOrArticle, hirt]
  · intro hvb hot
    subst hot
    simp [show optStrVal Option.none = Val.none from rfl, isNoteOrArticle,
      show truthy Val.none = false from rfl, hvb]

/-- C3 (witness): the disambiguation rules applied at the spec's concrete
inputs. -/
theorem c3_disambiguation_witness :
    truthy (Val.list [Val.str "http://orig"]) = true
    ∧ ((Val.str "comment", Val.none) : Val × Val).1 = Val.str "comment"
    ∧ ((Val.str "activity", Val.str "like") : Val × Val).1 = Val.str "activity" :=
  ⟨rfl,
   (c3_disambiguation.1 (.str "Note") (.list [.str "http://orig"]) (some "note")
     Option.none (.str "comment", .none) rfl rfl rfl).1 rfl (Or.inl rfl),
   ((c3_disambiguation.1 (.str "Like") Val.none Option.none (some "like")
     (.str "activity", .str "like") rfl rfl rfl).2.1) rfl rfl⟩

/-- C7: the claim fails in the AS2→AS1 direction: `to_as1` iterates the `image`
value directly (no list coercion), so a single string image `"ab"` yields a list
of its characters wrapped as url objects rather than a one-element list. -/
theorem c7_counterexample :
    to_as1 (.dict [("image", .str "ab")]) true
      = .ok (.dict [("image", .list [.dict [("url", .str "a")], .dict [("url", .str "b")]])])
    ∧ ¬ (to_as1 (.dict [("image", .str "ab")]) true
      = .ok (.dict [("image", .list [.dict [("url", .str "ab")]])])) := by
  refine ⟨rfl, ?_⟩
  intro h
  rw [show to_as1 (.dict [("image", .str "ab")]) true
      = .ok (.dict [("image", .list [.dict [("url", .str "a")], .dict [("url", .str "b")]])])
    from rfl] at h
  simp at h

/-- C7 (amended): the list-coercion primitive pluralizes any single non-list
value, so a single non-list `image` on AS1 input yields a one-element converted
`image` list on AS2 output (with default type `Image`); in the AS2→AS1 direction
`to_as1` instead iterates the `image` value itself: a list converts elementwise
with vocabulary population disabled, but a single mapping is iterated by key and
a single string by character, with no pluralization. -/
theorem c7_image_pluralization :
    (∀ (d : List (String × Val)) (k : String) (v : Val),
      aget d k = some v → isList v = false → get_list d k = [v])
    ∧ from_as1 (.dict [("image", .dict [("url", .str "http://i")])]) Option.none (some CONTEXT)
      = .ok (.dict [("@context", .str CONTEXT),
          ("image", .list [.dict [("url", .str "http://i"), ("type", .str "Image")]])])
    ∧ to_as1 (.dict [("image", .list [.dict [("name", .str "i")]])]) true
      = .ok (.dict [("image", .list [.dict [("displayName", .str "i")]])])
    ∧ to_as1 (.dict [("image", .dict [("url", .str "http://i")])]) true
      = .ok (.dict [("image", .list [.dict [("url", .str "url")]])]) := by
  refine ⟨?_, rfl, rfl, rfl⟩
  intro d k v h hl
  cases v <;> simp_all [get_list, isList]

/-- C7 (witness): a single non-list value is pluralized by the coercion
primitive. -/
theorem c7_image_pluralization_witness :
    get_list [("image", Val.str "http://i")] "image" = [Val.str "http://i"] :=
  c7_image_pluralization.1 [("image", Val.str "http://i")] "image" (Val.str "http://i") rfl rfl

/-- C8: the attributedTo step keeps only the first value as `author` and, when
further values exist, emits exactly one warning naming the dropped values (and
none when the list is a singleton); `attributedTo` never survives into a
successful `to_as1` output; the spec's two-author example yields the converted
first author and one warning naming B. -/
theorem c8_author :
    (∀ (conv : Val → Except Err (Val × List (List Val))) (d : List (String × Val))
      (a : Val) (rest : List Val) (ra : Val) (wa : List (List Val)),
      conv a = .ok (ra, wa) →
      authorStep conv d (a :: rest)
        = .ok (aset d "author" ra, (if rest.isEmpty then [] else [rest]) ++ wa))
    ∧ (∀ (conv : Val → Except Err (Val × List (List Val))) (d : List (String × Val)),
      authorStep conv d [] = .ok (d, []))
    ∧ (∀ (v : Val) (u : Bool) (p : Val × List (List Val)),
      to_as1W v u = .ok p → topGet p.1 "attributedTo" = Option.none)
    ∧ to_as1W (.dict [("attributedTo",
        .list [.dict [("type", .str "Person"), ("name", .str "A")],
               .dict [("type", .str "Person"), ("name", .str "B")]])]) true
      = .ok (.dict [("author", .dict [("objectType", .str "person"), ("displayName", .str "A")])],
          [[.dict [("type", .str "Person"), ("name", .str "B")]]])
    ∧ to_as1W (.dict [("attributedTo",
        .list [.dict [("type", .str "Person"), ("name", .str "A")]])]) true
      = .ok (.dict [("author", .dict [("objectType", .str "person"), ("displayName", .str "A")])],
          []) := by
  refine ⟨?_, ?_, ?_, rfl, rfl⟩
  · intro conv d a rest ra wa h
    simp [authorStep, h, Except.map]
  · intro conv d
    rfl
  · intro v u p h
    exact toAs1CoreF_ok_popped_none _ _ _ _ _ (Or.inr (Or.inr rfl)) h

/-- C8 (witness): the attributedTo step applied at the spec's two-author
example. -/
theorem c8_author_witness :
    authorStep (fun a => toAs1CoreF 20 a true) []
        [.dict [("type", .str "Person"), ("name", .str "A")],
         .dict [("type", .str "Person"), ("name", .str "B")]]
      = .ok ([("author", .dict [("objectType", .str "person"), ("displayName", .str "A")])],
          [[.dict [("type", .str "Person"), ("name", .str "B")]]])
    ∧ topGet (.dict [("author", .dict [("objectType", .str "person"),
        ("displayName", .str "A")])]) "attributedTo" = Option.none :=
  ⟨c8_author.1 (fun a => toAs1CoreF 20 a true) []
     (.dict [("type", .str "Person"), ("name", .str "A")])
     [.dict [("type", .str "Person"), ("name", .str "B")]]
     (.dict [("objectType", .str "person"), ("displayName", .str "A")]) [] rfl,
   c8_author.2.2.1 (.dict [("attributedTo",
       .list [.dict [("type", .str "Person"), ("name", .str "A")]])]) true
     (.dict [("author", .dict [("objectType", .str "person"), ("displayName", .str "A")])], [])
     rfl⟩

/-- C9: the claim fails when a present `verb` is falsy: with `verb: ""` and
`objectType: "person"` the code resolves the type from `objectType` (yielding
`Person`), although `""` is in neither table, so under the claim's
verb-takes-precedence procedure no type would have resolved. -/
theorem c9_counterexample :
    from_as1 (.dict [("verb", .str ""), ("objectType", .str "person")]) Option.none (some CONTEXT)
      = .ok (.dict [("@context", .str CONTEXT), ("type", .str "Person")])
    ∧ aget OBJECT_TYPE_TO_TYPE "" = Option.none
    ∧ aget VERB_TO_TYPE "" = Option.none :=
  ⟨rfl, by decide, by decide⟩

/-- C9 (amended): type resolution takes the popped `verb` when it is truthy
(non-empty) — the objectType is then never consulted — and otherwise the popped
`objectType`; the chosen key is looked up first in the objectType table, then in
the verb table, then falls back to the caller's default; in particular
`from_as1({verb: "like"})` yields type `Like` via the verb table alone. -/
theorem c9_type_resolution :
    (∀ (verb objType objType2 : Val) (dflt : Option String), truthy verb = true →
      resolveType verb objType dflt = resolveType verb objType2 dflt)
    ∧ (∀ (verb objType : Val) (dflt : Option String), truthy verb = false →
      resolveType verb objType dflt = resolveType Val.none objType dflt)
    ∧ (∀ (s r : String) (dflt : Option String), s ≠ "" →
      aget OBJECT_TYPE_TO_TYPE s = some r → r ≠ "" →
      resolveType (.str s) Val.none dflt = .ok (some r))
    ∧ (∀ (s r : String) (dflt : Option String), s ≠ "" →
      aget OBJECT_TYPE_TO_TYPE s = Option.none → aget VERB_TO_TYPE s = some r → r ≠ "" →
      resolveType (.str s) Val.none dflt = .ok (some r))
    ∧ (∀ (s : String) (dflt : Option String), s ≠ "" →
      aget OBJECT_TYPE_TO_TYPE s = Option.none → aget VERB_TO_TYPE s = Option.none →
      resolveType (.str s) Val.none dflt = .ok dflt)
    ∧ from_as1 (.dict [("verb", .str "like")]) Option.none (some CONTEXT)
      = .ok (.dict [("@context", .str CONTEXT), ("type", .str "Like")])
    ∧ aget OBJECT_TYPE_TO_TYPE "like" = Option.none
    ∧ aget VERB_TO_TYPE "like" = some "Like" := by
  refine ⟨?_, ?_, ?_, ?_, ?_, rfl, by decide, by decide⟩
  · intro verb objType objType2 dflt h
    simp [resolveType, h]
  · intro verb objType dflt h
    simp [resolveType, h, show truthy Val.none = false from rfl]
  · intro s r dflt hs h hr
    have ht : truthy (.str s) = true := by simpa [truthy] using hs
    simp [resolveType, ht, pyTableGet, h, hr, Bind.bind, Except.bind, pure, Except.pure]
  · intro s r dflt hs h1 h2 hr
    have ht : truthy (.str s) = true := by simpa [truthy] using hs
    simp [resolveType, ht, pyTableGet, h1, h2, hr, Bind.bind, Except.bind, pure, Except.pure]
  · intro s dflt hs h1 h2
    have ht : truthy (.str s) = true := by simpa [truthy] using hs
    simp [resolveType, ht, pyTableGet, h1, h2, Bind.bind, Except.bind, pure, Except.pure]

/-- C9 (witness): the amended resolution rules applied at concrete inputs. -/
theorem c9_type_resolution_witness :
    resolveType (.str "like") (.str "person") Option.none
      = resolveType (.str "like") Val.none Option.none
    ∧ resolveType (.str "like") Val.none Option.none = .ok (some "Like") :=
  ⟨c9_type_resolution.1 (.str "like") (.str "person") Val.none Option.none rfl,
   c9_type_resolution.2.2.2.1 "like" "Like" Option.none (by decide) (by decide)
     (by decide) (by decide)⟩

/-- C5: the claim fails for nested values of unrecognized keys, which the
transformers copy verbatim: `from_as1` leaves a `verb` key and `to_as1` leaves a
`type` key inside the value of an unrecognized `foo` key; and it fails even at
the top level of the value `from_as1` returns, because the url-collapse returns
the unconverted url value verbatim — a mapping that may itself carry `verb`. -/
theorem c5_counterexample :
    (from_as1 (.dict [("foo", .dict [("verb", .str "like")])]) Option.none (some CONTEXT)).map
      (fun v => hasKeyDeep v "verb") = .ok true
    ∧ (to_as1 (.dict [("foo", .dict [("type", .str "Note")])]) true).map
      (fun v => hasKeyDeep v "type") = .ok true
    ∧ from_as1 (.dict [("url", .dict [("verb", .str "like")])]) Option.none Option.none
        = .ok (.dict [("verb", .str "like")]) :=
  ⟨rfl, rfl, rfl⟩

/-- C5 (amended): whenever the body of `from_as1` succeeds, the mapping it
assembles and trims never carries a top-level `verb` or `objectType` key, and
the value `from_as1` returns is exactly the url-collapse of that mapping; the
collapse is either the identity or, on a trimmed mapping whose only key is
`url`, the stored url value itself — the one way an other-dialect top-level key
can appear in the returned value, since that url value is passed through
unconverted; the mapping returned by a successful `to_as1` never carries a
top-level `@context`, `type` or `attributedTo` key; nested values stored under
unrecognized keys are copied verbatim in both directions and may retain
other-dialect keys (see the counterexample). -/
theorem c5_no_leakage :
    (∀ (v : Val) (ty ctx : Option String) (p : Val),
      fromAs1CoreF (vsize v + 1) v ty ctx = .ok p →
      topGet p "verb" = Option.none ∧ topGet p "objectType" = Option.none
        ∧ from_as1 v ty ctx = .ok (collapseUrl p))
    ∧ (∀ (v : Val) (ty ctx : Option String),
      from_as1 v ty ctx = (fromAs1CoreF (vsize v + 1) v ty ctx).map collapseUrl)
    ∧ (∀ (p : Val), collapseUrl p = p
        ∨ ∃ w : Val, p = .dict [("url", w)] ∧ collapseUrl p = w)
    ∧ (∀ (v : Val) (u : Bool) (r : Val),
      to_as1 v u = .ok r →
      topGet r "@context" = Option.none ∧ topGet r "type" = Option.none
        ∧ topGet r "attributedTo" = Option.none) := by
  refine ⟨?_, fun _ _ _ => rfl, ?_, ?_⟩
  · intro v ty ctx p hc
    refine ⟨fromAs1CoreF_ok_popped_none _ v ty ctx p "verb" (Or.inl rfl) hc,
      fromAs1CoreF_ok_popped_none _ v ty ctx p "objectType" (Or.inr rfl) hc, ?_⟩
    show (fromAs1CoreF (vsize v + 1) v ty ctx).map collapseUrl = _
    rw [hc]
    rfl
  · intro p
    cases p with
    | none => exact Or.inl rfl
    | bool b => exact Or.inl rfl
    | int n => exact Or.inl rfl
    | str s => exact Or.inl rfl
    | list l => exact Or.inl rfl
    | dict td =>
      by_cases hk : akeys td = ["url"]
      · right
        cases td with
        | nil => simp [akeys] at hk
        | cons kv rest =>
          cases rest with
          | nil =>
            obtain ⟨k, w⟩ := kv
            simp [akeys] at hk
            subst hk
            exact ⟨w, rfl, rfl⟩
          | cons kv2 rest2 => simp [akeys] at hk
      · left
        have h' : ¬((akeys td == ["url"]) = true) := by simpa using hk
        simp only [collapseUrl, if_neg h']
  · intro v u r h
    rw [show to_as1 v u = (toAs1CoreF (vsize v + 1) v u).map Prod.fst from rfl] at h
    cases hc : toAs1CoreF (vsize v + 1) v u with
    | error e => rw [hc] at h; exact absurd h (by simp [Except.map])
    | ok p =>
      rw [hc] at h
      have hr : r = p.1 := by
        simp only [Except.map, Except.ok.injEq] at h
        exact h.symm
      subst hr
      exact ⟨toAs1CoreF_ok_popped_none _ v u p "@context" (Or.inl rfl) hc,
        toAs1CoreF_ok_popped_none _ v u p "type" (Or.inr (Or.inl rfl)) hc,
        toAs1CoreF_ok_popped_none _ v u p "attributedTo" (Or.inr (Or.inr rfl)) hc⟩

/-- C5 (witness): the amended statement applied at concrete conversions, on
both the `from_as1` and the `to_as1` side. -/
theorem c5_no_leakage_witness :
    (topGet (.dict [("@context", .str CONTEXT), ("type", .str "Like")]) "verb" = Option.none
      ∧ topGet (.dict [("@context", .str CONTEXT), ("type", .str "Like")]) "objectType"
          = Option.none
      ∧ from_as1 (.dict [("verb", .str "like")]) Option.none (some CONTEXT)
          = .ok (collapseUrl (.dict [("@context", .str CONTEXT), ("type", .str "Like")])))
    ∧ (topGet (.dict [("url", .str "http://x")]) "@context" = Option.none
      ∧ topGet (.dict [("url", .str "http://x")]) "type" = Option.none
      ∧ topGet (.dict [("url", .str "http://x")]) "attributedTo" = Option.none) :=
  ⟨c5_no_leakage.1 (.dict [("verb", .str "like")]) Option.none (some CONTEXT)
      (.dict [("@context", .str CONTEXT), ("type", .str "Like")]) rfl,
   c5_no_leakage.2.2.2 (.str "http://x") true (.dict [("url", .str "http://x")]) rfl⟩

/-- C1: the claim fails for the empty url string: trimming treats `""` as null,
so `{url: ""}` does not round trip (the result is the empty mapping). -/
theorem c1_counterexample :
    (from_as1 (.dict [("url", .str "")]) Option.none (some CONTEXT)).bind (fun v => to_as1 v true)
      = .ok (.dict [])
    ∧ ¬ ((from_as1 (.dict [("url", .str "")]) Option.none (some CONTEXT)).bind
        (fun v => to_as1 v true) = .ok (.dict [("url", .str "")])) := by
  refine ⟨rfl, ?_⟩
  intro h
  rw [show (from_as1 (.dict [("url", .str "")]) Option.none (some CONTEXT)).bind
      (fun v => to_as1 v true) = .ok (.dict []) from rfl] at h
  simp at h

theorem bindOkE {α β : Type} (a : α) (g : α → Except Err β) :
    (Except.ok a >>= g) = g a := rfl

theorem bindPureE {α β : Type} (a : α) (g : α → Except Err β) :
    ((pure a : Except Err α) >>= g) = g a := rfl

theorem mapOkE {α β : Type} (g : α → β) (a : α) :
    Except.map g (Except.ok a : Except Err α) = .ok (g a) := rfl

theorem linkFromCore (f : Nat) (w : Val) (h2 : isNull w = false)
    (h3 : ∀ g : Nat, trimNullsF g w = w) :
    (fromAs1CoreF (f + 1) (.dict [("url", w)]) Option.none (some CONTEXT)).map collapseUrl
      = .ok (.dict [("url", w), ("@context", .str CONTEXT)]) := by
  rw [fromAs1CoreF.eq_def]
  simp only [show truthy (Val.dict [("url", w)]) = true from rfl, if_true]
  simp only [show (aget [("url", w)] "verb") = Option.none from rfl,
    show (aget [("url", w)] "objectType") = Option.none from rfl,
    show (aget [("url", w)] "actor") = Option.none from rfl,
    show (aget [("url", w)] "inReplyTo") = Option.none from rfl,
    show (aget [("url", w)] "object") = Option.none from rfl,
    show (aget [("url", w)] "displayName") = Option.none from rfl,
    show (aget [("url", w)] "location") = Option.none from rfl,
    show get_list [("url", w)] "attachments" = [] from rfl,
    show get_list [("url", w)] "author" = [] from rfl,
    show get_list [("url", w)] "image" = [] from rfl,
    show get_list [("url", w)] "tags" = [] from rfl,
    Option.getD,
    show resolveType Val.none Val.none Option.none = .ok Option.none from rfl,
    show iterVal (Val.list []) = .ok [] from rfl,
    fromAs1CoreF_falsy f Val.none Option.none Option.none rfl,
    show ∀ (e : Val → Except Err Val), List.mapM e [] = .ok [] from fun _ => rfl,
    show Except.map collapseUrl (Except.ok (Val.dict [])) = .ok (Val.dict []) from rfl,
    bindOkE, bindPureE,
    show truthy (optStrVal (some CONTEXT)) = true from rfl,
    show truthy Val.none = false from rfl,
    eq_self_iff_true, if_true, Bool.false_eq_true, if_false]
  simp [aset, adel, show optStrVal Option.none = Val.none from rfl,
    show trim_nulls (Val.list []) = Val.list [] from rfl]
  have etrim : trim_nulls (.dict [("url", w), ("@context", .str CONTEXT), ("type", Val.none),
      ("name", Val.none), ("actor", Val.dict []), ("attachment", Val.list []),
      ("attributedTo", Val.list []), ("image", Val.list []), ("inReplyTo", Val.list []),
      ("object", Val.dict []), ("tag", Val.list [])])
      = .dict [("url", w), ("@context", .str CONTEXT)] := by
    rw [trim_nulls_def, trimNullsF_dict_succ]
    simp only [List.map_cons, List.map_nil, trimNullsF_none, trimNullsF_list_nil,
      trimNullsF_dict_nil, trimNullsF_str, h3, List.filter_cons, List.filter_nil,
      show isNull Val.none = true from rfl, show isNull (Val.list []) = true from rfl,
      show isNull (Val.dict []) = true from rfl,
      show isNull (Val.str CONTEXT) = false from rfl, h2, Bool.not_true, Bool.not_false,
      Bool.false_eq_true, if_false, if_true]
  rw [etrim]
  rfl

theorem linkFromCoreNoCtx (f : Nat) (w : Val) (h2 : isNull w = false)
    (h3 : ∀ g : Nat, trimNullsF g w = w) :
    (fromAs1CoreF (f + 1) (.dict [("url", w)]) Option.none Option.none).map collapseUrl
      = .ok w := by
  rw [fromAs1CoreF.eq_def]
  simp only [show truthy (Val.dict [("url", w)]) = true from rfl, if_true]
  simp only [show (aget [("url", w)] "verb") = Option.none from rfl,
    show (aget [("url", w)] "objectType") = Option.none from rfl,
    show (aget [("url", w)] "actor") = Option.none from rfl,
    show (aget [("url", w)] "inReplyTo") = Option.none from rfl,
    show (aget [("url", w)] "object") = Option.none from rfl,
    show (aget [("url", w)] "displayName") = Option.none from rfl,
    show (aget [("url", w)] "location") = Option.none from rfl,
    show get_list [("url", w)] "attachments" = [] from rfl,
    show get_list [("url", w)] "author" = [] from rfl,
    show get_list [("url", w)] "image" = [] from rfl,
    show get_list [("url", w)] "tags" = [] from rfl,
    Option.getD,
    show resolveType Val.none Val.none Option.none = .ok Option.none from rfl,
    show iterVal (Val.list []) = .ok [] from rfl,
    fromAs1CoreF_falsy f Val.none Option.none Option.none rfl,
    show ∀ (e : Val → Except Err Val), List.mapM e [] = .ok [] from fun _ => rfl,
    show Except.map collapseUrl (Except.ok (Val.dict [])) = .ok (Val.dict []) from rfl,
    bindOkE, bindPureE,
    show truthy (optStrVal Option.none) = false from rfl,
    show truthy Val.none = false from rfl,
    Bool.false_eq_true, if_false]
  simp [aset, adel, show optStrVal Option.none = Val.none from rfl,
    show trim_nulls (Val.list []) = Val.list [] from rfl]
  have etrim : trim_nulls (.dict [("url", w), ("type", Val.none), ("name", Val.none),
      ("actor", Val.dict []), ("attachment", Val.list []), ("attributedTo", Val.list []),
      ("image", Val.list []), ("inReplyTo", Val.list []), ("object", Val.dict []),
      ("tag", Val.list [])]) = .dict [("url", w)] := by
    rw [trim_nulls_def, trimNullsF_dict_succ]
    simp only [List.map_cons, List.map_nil, trimNullsF_none, trimNullsF_list_nil,
      trimNullsF_dict_nil, h3, List.filter_cons, List.filter_nil,
      show isNull Val.none = true from rfl, show isNull (Val.list []) = true from rfl,
      show isNull (Val.dict []) = true from rfl, h2, Bool.not_true, Bool.not_false,
      Bool.false_eq_true, if_false, if_true]
  rw [etrim]
  rfl

theorem linkToCore (f : Nat) (w : Val) (h2 : isNull w = false)
    (h3 : ∀ g : Nat, trimNullsF g w = w) :
    (toAs1CoreF (f + 1) (.dict [("url", w), ("@context", .str CONTEXT)]) true).map Prod.fst
      = .ok (.dict [("url", w)]) := by
  rw [toAs1CoreF.eq_def]
  simp only [show truthy (Val.dict [("url", w), ("@context", .str CONTEXT)]) = true from rfl,
    if_true, eq_self_iff_true]
  simp only [show (aget [("url", w), ("@context", .str CONTEXT)] "type") = Option.none from rfl,
    show (aget [("url", w), ("@context", .str CONTEXT)] "inReplyTo") = Option.none from rfl,
    show (aget [("url", w), ("@context", .str CONTEXT)] "actor") = Option.none from rfl,
    show (aget [("url", w), ("@context", .str CONTEXT)] "name") = Option.none from rfl,
    show (aget [("url", w), ("@context", .str CONTEXT)] "location") = Option.none from rfl,
    show (aget [("url", w), ("@context", .str CONTEXT)] "object") = Option.none from rfl,
    show (aget [("url", w), ("@context", .str CONTEXT)] "image") = Option.none from rfl,
    show get_list [("url", w), ("@context", .str CONTEXT)] "attachment" = [] from rfl,
    show get_list [("url", w), ("@context", .str CONTEXT)] "inReplyTo" = [] from rfl,
    show get_list [("url", w), ("@context", .str CONTEXT)] "tag" = [] from rfl,
    show get_list [("url", w), ("@context", .str CONTEXT)] "attributedTo" = [] from rfl,
    Option.getD,
    show vocabFields Val.none Val.none = .ok (Val.none, Val.none) from rfl,
    show iterVal (Val.list []) = .ok [] from rfl,
    toAs1CoreF_falsy f Val.none true rfl,
    show ∀ (e : Val → Except Err (Val × List (List Val))), List.mapM e [] = .ok [] from
      fun _ => rfl,
    mapOkE, bindOkE, bindPureE,
    show ∀ (conv : Val → Except Err (Val × List (List Val))) (d : List (String × Val)),
      authorStep conv d [] = .ok (d, []) from fun _ _ => rfl,
    List.map_nil, List.flatten_nil, List.append_nil, List.nil_append]
  simp [aset, adel, show trim_nulls (Val.list []) = Val.list [] from rfl]
  have etrim : trim_nulls (.dict [("url", w), ("objectType", Val.none), ("verb", Val.none),
      ("displayName", Val.none), ("actor", Val.dict []), ("attachments", Val.list []),
      ("image", Val.list []), ("inReplyTo", Val.list []), ("location", Val.dict []),
      ("object", Val.dict []), ("tags", Val.list [])]) = .dict [("url", w)] := by
    rw [trim_nulls_def, trimNullsF_dict_succ]
    simp only [List.map_cons, List.map_nil, trimNullsF_none, trimNullsF_list_nil,
      trimNullsF_dict_nil, h3, List.filter_cons, List.filter_nil,
      show isNull Val.none = true from rfl, show isNull (Val.list []) = true from rfl,
      show isNull (Val.dict []) = true from rfl, h2, Bool.not_true, Bool.not_false,
      Bool.false_eq_true, if_false, if_true]
  rw [etrim]
  rfl

/-- C1 (amended): for every url value that trimming keeps unchanged and does not
drop (in particular every non-empty string), `{url: w}` converted by `from_as1`
with the default context yields `{url: w, @context: CONTEXT}` and converting
that back with `to_as1` returns exactly `{url: w}`; with a null context the
collapse rule fires and `from_as1` returns the bare value `w`; `to_as1` expands
a non-empty bare string `s` back to `{url: s}`, and every non-empty string
satisfies the two trimming side conditions — so collapse and expansion are exact
inverses for link-only objects with a non-empty url. -/
theorem c1_link_roundtrip :
    (∀ (w : Val), isNull w = false → (∀ g : Nat, trimNullsF g w = w) →
      (from_as1 (.dict [("url", w)]) Option.none (some CONTEXT)).bind (fun v => to_as1 v true)
        = .ok (.dict [("url", w)])
      ∧ from_as1 (.dict [("url", w)]) Option.none Option.none = .ok w)
    ∧ (∀ (s : String), s ≠ "" →
      to_as1 (.str s) true = .ok (.dict [("url", .str s)])
      ∧ isNull (Val.str s) = false
      ∧ (∀ g : Nat, trimNullsF g (.str s) = .str s)) := by
  constructor
  · intro w h2 h3
    constructor
    · show ((fromAs1CoreF (vsize (Val.dict [("url", w)]) + 1) (.dict [("url", w)])
        Option.none (some CONTEXT)).map collapseUrl).bind (fun v => to_as1 v true) = _
      rw [linkFromCore (vsize (Val.dict [("url", w)])) w h2 h3]
      show to_as1 (.dict [("url", w), ("@context", .str CONTEXT)]) true = _
      show (toAs1CoreF (vsize (Val.dict [("url", w), ("@context", .str CONTEXT)]) + 1)
        (.dict [("url", w), ("@context", .str CONTEXT)]) true).map Prod.fst = _
      exact linkToCore _ w h2 h3
    · show (fromAs1CoreF (vsize (Val.dict [("url", w)]) + 1) (.dict [("url", w)])
        Option.none Option.none).map collapseUrl = _
      exact linkFromCoreNoCtx _ w h2 h3
  · intro s hs
    refine ⟨?_, by simp [isNull, hs], fun g => trimNullsF_str g s⟩
    show (toAs1CoreF (vsize (Val.str s) + 1) (.str s) true).map Prod.fst = _
    rw [toAs1CoreF_str _ _ _ hs]
    rfl

/-- C1 (witness): the amended round trip at the spec example url. -/
theorem c1_link_roundtrip_witness :
    (from_as1 (.dict [("url", .str "http://x")]) Option.none (some CONTEXT)).bind
      (fun v => to_as1 v true) = .ok (.dict [("url", .str "http://x")])
    ∧ to_as1 (.str "http://x") true = .ok (.dict [("url", .str "http://x")]) :=
  ⟨(c1_link_roundtrip.1 (.str "http://x") rfl (fun g => trimNullsF_str g "http://x")).1,
   (c1_link_roundtrip.2 "http://x" (by decide)).1⟩

end Granary
